import Mathlib

/-!
Verification development for the `genius` two-phase identifier-validation
pipeline (Python sources: `main.py`, `model.py`, `validate_IBAN.py`,
`validate_URL.py`, `validate_VAT_ID.py`).

The Python code is shallowly embedded: each pure helper becomes a Lean
function over `List Char` / `Nat`; environment-dependent parts (clock,
HTTP, VIES API, database) become explicit parameters.  Strings are
manipulated through their character lists because the Python code indexes
and slices strings; Python `datetime` timestamps are modelled as `Nat`,
`None` as `Option.none`.

The spec writes record statuses as `formal-ok` / `ok` / `check`; the code
stores the literals `"formal ok"` / `"ok"` / `"check"`.  Throughout, the
spec token `formal-ok` denotes the stored literal `"formal ok"`.
-/

/-- `model.py` — `ValidationObject` dataclass.  `last_visited` is an
optional timestamp (`datetime` or `None` in Python, here `Option Nat`). -/
structure ValidationObject where
  classification : String
  value : String
  status : String
  status_message : String
  last_visited : Option Nat
  additional_information : String
deriving DecidableEq, Repr

/-! ## Character / string helpers (Python primitive semantics) -/

/-- Python `int(c)` for a single character: its decimal digit value. -/
def charDigit (c : Char) : Nat := c.toNat - 48

/-- Python `str.isdigit()` for ASCII digit strings: true iff the string is
nonempty and all characters are digits (`"".isdigit()` is `False`). -/
def pyIsDigit (l : List Char) : Bool := !l.isEmpty && l.all Char.isDigit

/-- Python `int(s)` for a digit string: decimal interpretation. -/
def strNat (l : List Char) : Nat := l.foldl (fun a c => 10 * a + charDigit c) 0

/-- Python `int(ch, 36)`: digit value for `0`-`9`, `10`..`35` for letters
of either case.  (Only ever applied to alphanumeric characters: the IBAN
syntax check runs first.) -/
def base36 (c : Char) : Nat :=
  if c.isDigit then c.toNat - 48 else c.toUpper.toNat - 55

/-- Python `str.strip()` (ASCII whitespace suffices for the data at hand). -/
def pyStrip (l : List Char) : List Char :=
  (l.dropWhile Char.isWhitespace).reverse.dropWhile Char.isWhitespace |>.reverse

/-- Python `str.upper()`, characterwise. -/
def pyUpper (l : List Char) : List Char := l.map Char.toUpper

/-- `l` starts with the literal `p` (Python `str.startswith`). -/
def startsWithLit (p : List Char) (l : List Char) : Bool := l.take p.length == p

/-- Python `str.endswith`. -/
def endsWithLit (p : List Char) (l : List Char) : Bool :=
  startsWithLit p.reverse l.reverse

/-- `[A-Z]` after normalization to upper case (ASCII). -/
def isUpperAZ (c : Char) : Bool := 'A' ≤ c && c ≤ 'Z'

/-! ## `validate_IBAN.py` -/

/-- `validate_IBAN.is_valid_iban_syntax`: the regex
`^[A-Z]{2}[0-9]{2}[A-Z0-9]{1,30}$` with `re.IGNORECASE`:
two ASCII letters, two digits, then 1–30 alphanumerics. -/
def iban_syntax_valid (iban : String) : Bool :=
  match iban.data with
  | a :: b :: c :: d :: rest =>
      a.isAlpha && b.isAlpha && c.isDigit && d.isDigit &&
      decide (1 ≤ rest.length) && decide (rest.length ≤ 30) &&
      rest.all Char.isAlphanum
  | _ => false

/-- `validate_IBAN.is_valid_iban_checksum`: move the first four characters
to the end, replace each character by `str(int(ch, 36))` (one decimal digit
for a digit, two for a letter), read the concatenation as a decimal
integer, and compare its remainder mod 97 with 1.  The concatenation is
interpreted numerically: appending `str(v)` for `v ≤ 9` multiplies the
accumulator by 10, for `10 ≤ v ≤ 35` by 100. -/
def ibanNumeric (l : List Char) : Nat :=
  l.foldl (fun a c => a * (if 10 ≤ base36 c then 100 else 10) + base36 c) 0

def is_valid_iban_checksum (iban : String) : Bool :=
  ibanNumeric (iban.data.drop 4 ++ iban.data.take 4) % 97 == 1

/-- `validate_IBAN.validate` — the single (fast+slow combined) operation of
the IBAN validator: stamps `last_visited`, then syntax check, then checksum
check, else `ok`. -/
def ibanValidate (now : Nat) (objects : List ValidationObject) : List ValidationObject :=
  objects.map fun obj =>
    let obj := { obj with last_visited := some now }
    if !iban_syntax_valid obj.value then
      { obj with status := "check", status_message := "Invalid IBAN syntax" }
    else if !is_valid_iban_checksum obj.value then
      { obj with status := "check", status_message := "Invalid IBAN checksum" }
    else
      { obj with status := "ok", status_message := "" }

/-! ## `validate_VAT_ID.py` — fast phase -/

/-- Exactly `n` characters, all decimal digits. -/
def digitsLen (n : Nat) (l : List Char) : Bool :=
  l.length == n && l.all Char.isDigit

/-- Between `lo` and `hi` characters, all decimal digits. -/
def digitsBetween (lo hi : Nat) (l : List Char) : Bool :=
  decide (lo ≤ l.length) && decide (l.length ≤ hi) && l.all Char.isDigit

/-- Strip the literal prefix `p` from `l`, or fail. -/
def stripLit (p : List Char) (l : List Char) : Option (List Char) :=
  if l.take p.length == p then some (l.drop p.length) else none

/-- One country alternative of the VAT syntax regex: literal country
prefix, then a body test on the remainder. -/
def vatAlt (p : List Char) (body : List Char → Bool) (v : List Char) : Bool :=
  match stripLit p v with
  | some rest => body rest
  | none => false

/-- `validate_VAT_ID.is_valid_vat_syntax`: normalize (`strip`, `upper`),
then match the anchored alternation of per-country patterns.  Each
alternative below transcribes one line of the source regex. -/
def vat_syntax_valid (vat_id : String) : Bool :=
  let v := pyUpper (pyStrip vat_id.data)
  vatAlt "ATU".data (digitsLen 8) v ||
  vatAlt "BE0".data (digitsLen 9) v ||
  vatAlt "BG".data (digitsBetween 9 10) v ||
  vatAlt "CY".data (fun r => digitsLen 8 (r.take 8) && r.length == 9 &&
    isUpperAZ (r.getD 8 ' ')) v ||
  vatAlt "CZ".data (digitsBetween 8 10) v ||
  vatAlt "DE".data (digitsLen 9) v ||
  vatAlt "DK".data (digitsLen 8) v ||
  vatAlt "EE".data (digitsLen 9) v ||
  vatAlt "EL".data (digitsLen 9) v ||
  vatAlt "ES".data (fun r => r.length == 9 && (r.getD 0 ' ').isAlphanum &&
    digitsLen 7 ((r.drop 1).take 7) && (r.getD 8 ' ').isAlphanum) v ||
  vatAlt "FI".data (digitsLen 8) v ||
  vatAlt "FR".data (fun r => r.length == 11 && (r.take 2).all Char.isAlphanum &&
    digitsLen 9 (r.drop 2)) v ||
  vatAlt "HR".data (digitsLen 11) v ||
  vatAlt "HU".data (digitsLen 8) v ||
  vatAlt "IE".data (fun r => digitsLen 7 (r.take 7) &&
    ((r.length == 8 && letterAW (r.getD 7 ' ')) ||
     (r.length == 9 && letterAW (r.getD 7 ' ') && letterAI (r.getD 8 ' ')))) v ||
  vatAlt "IT".data (digitsLen 11) v ||
  vatAlt "LT".data (fun r => digitsLen 9 r || digitsLen 12 r) v ||
  vatAlt "LU".data (digitsLen 8) v ||
  vatAlt "LV".data (digitsLen 11) v ||
  vatAlt "MT".data (digitsLen 8) v ||
  vatAlt "NL".data (fun r => r.length == 12 && digitsLen 9 (r.take 9) &&
    r.getD 9 ' ' == 'B' && digitsLen 2 (r.drop 10)) v ||
  vatAlt "PL".data (digitsLen 10) v ||
  vatAlt "PT".data (digitsLen 9) v ||
  vatAlt "RO".data (digitsBetween 2 10) v ||
  vatAlt "SE".data (digitsLen 12) v ||
  vatAlt "SI".data (digitsLen 8) v ||
  vatAlt "SK".data (digitsLen 10) v
where
  /-- `[A-W]` -/
  letterAW (c : Char) : Bool := 'A' ≤ c && c ≤ 'W'
  /-- `[A-I]` -/
  letterAI (c : Char) : Bool := 'A' ≤ c && c ≤ 'I'

/-- The loop body of the German running-product algorithm:
`sum = (digit + product) % 10` (zero mapped to 10), then
`product = (2 * sum) % 11`. -/
def germanStep (product : Nat) (c : Char) : Nat :=
  let s := (charDigit c + product) % 10
  let s := if s == 0 then 10 else s
  (2 * s) % 11

/-- The running product over the first 8 digits, starting at 10. -/
def germanProduct (ds : List Char) : Nat := (ds.take 8).foldl germanStep 10

/-- `_is_valid_german_vat_checksum`: 9 digits; running product starting at
10 over the first 8 digits; `check = 11 - product` with 10 mapped to 0,
compared with the 9th digit. -/
def is_valid_german_vat_checksum (number : String) : Bool :=
  let ds := number.data
  if ds.length == 9 && pyIsDigit ds then
    let check := 11 - germanProduct ds
    let check := if check == 10 then 0 else check
    check == charDigit (ds.getD 8 '0')
  else false

/-- `_is_valid_austrian_vat_checksum`: leading `U`, weights 1,2,1,2,1,2,1
over digits 2–8 with digit-sum folding, check `(10-(total+4) mod 10) mod 10`. -/
def is_valid_austrian_vat_checksum (number : String) : Bool :=
  let ds := number.data
  if ds.length == 9 && startsWithLit ['U'] ds then
    let digits := ((ds.drop 1).take 7).map charDigit
    let checksum := charDigit (ds.getD 8 '0')
    let total := (digits.zip [1, 2, 1, 2, 1, 2, 1]).foldl
      (fun t dw =>
        let product := dw.1 * dw.2
        t + (if product < 10 then product else product / 10 + product % 10))
      0
    let checkdigit := (10 - (total + 4) % 10) % 10
    checkdigit == checksum
  else false

/-- `_is_valid_swiss_vat_checksum`: weights `[5,4,3,2,7,6,5,4]` over the
first 8 digits; `check = 11 - total % 11`, 10 invalid, 11 becomes 0. -/
def is_valid_swiss_vat_checksum (number : String) : Bool :=
  let ds := number.data
  if ds.length == 9 && pyIsDigit ds then
    let total := ((ds.take 8).zip [5, 4, 3, 2, 7, 6, 5, 4]).foldl
      (fun t dw => t + charDigit dw.1 * dw.2) 0
    let check := 11 - total % 11
    if check == 10 then false
    else (if check == 11 then 0 else check) == charDigit (ds.getD 8 '0')
  else false

/-- `_is_valid_belgian_vat_checksum` — transcribed exactly from the source:
10 digits, leading `0`; `base = int(number[1:9])` (characters at indices
1–8), `checksum = int(number[8:10])` (characters at indices 8–9, which
overlap the base), accept iff `97 - base % 97 == checksum`. -/
def is_valid_belgian_vat_checksum (number : String) : Bool :=
  let ds := number.data
  if ds.length == 10 && startsWithLit ['0'] ds && pyIsDigit ds then
    let base := strNat ((ds.drop 1).take 8)
    let checksum := strNat ((ds.drop 8).take 2)
    97 - base % 97 == checksum
  else false

/-- `_is_valid_italian_vat_checksum`: 11 digits; Luhn-style doubling of
odd 0-indexed positions over the first 10 digits. -/
def is_valid_italian_vat_checksum (number : String) : Bool :=
  let ds := number.data
  if ds.length == 11 && pyIsDigit ds then
    let s := ((ds.take 10).enum).foldl
      (fun s ic =>
        let n := charDigit ic.2
        if ic.1 % 2 == 0 then s + n
        else
          let n := 2 * n
          s + (if n < 10 then n else n - 9))
      0
    let checkdigit := (10 - s % 10) % 10
    checkdigit == charDigit (ds.getD 10 '0')
  else false

/-- `_is_valid_dutch_vat_checksum`: only suffixes `B01`/`B02` are checked
(anything else passes); weighted sum with weights 9..1 over the first 9
digits must be divisible by 11. -/
def is_valid_dutch_vat_checksum (number : String) : Bool :=
  let ds := number.data
  if !endsWithLit "B01".data ds && !endsWithLit "B02".data ds then true
  else
    let digits := ds.take 9
    if !pyIsDigit digits then false
    else
      let total := (digits.zip [9, 8, 7, 6, 5, 4, 3, 2, 1]).foldl
        (fun t dw => t + charDigit dw.1 * dw.2) 0
      total % 11 == 0

/-- `_is_valid_swedish_vat_checksum`: 12 digits; alternating doubling with
digit-sum folding over the first 10 digits; check digit compared with the
character at index 10 (the 11th digit; the 12th is never inspected). -/
def is_valid_swedish_vat_checksum (number : String) : Bool :=
  let ds := number.data
  if ds.length == 12 && pyIsDigit ds then
    let digits := ds.take 10
    let total := (digits.enum).foldl
      (fun t ic =>
        let n := charDigit ic.2
        let n := if ic.1 % 2 == 0 then 2 * n else n
        t + (if n < 10 then n else n / 10 + n % 10))
      0
    let checkdigit := (10 - total % 10) % 10
    checkdigit == charDigit (ds.getD 10 '0')
  else false

/-- `validate_VAT_ID.is_valid_vat_checksum`: country dispatch on
`vat_id[:2].upper()` with the *raw* (unstripped) value; the number part is
the raw `vat_id[2:]`.  Countries without an algorithm default to `True`. -/
def is_valid_vat_checksum (vat_id : String) : Bool :=
  let country_code := pyUpper (vat_id.data.take 2)
  let number := String.mk (vat_id.data.drop 2)
  if country_code == "DE".data then is_valid_german_vat_checksum number
  else if country_code == "AT".data then is_valid_austrian_vat_checksum number
  else if country_code == "CH".data then is_valid_swiss_vat_checksum number
  else if country_code == "IT".data then is_valid_italian_vat_checksum number
  else if country_code == "NL".data then is_valid_dutch_vat_checksum number
  else if country_code == "BE".data then is_valid_belgian_vat_checksum number
  else if country_code == "SE".data then is_valid_swedish_vat_checksum number
  else true

/-- `validate_VAT_ID.validate_fast`: stamp `last_visited`, then syntax,
then checksum, else `formal ok` / `API check outstanding`. -/
def vatValidateFast (now : Nat) (objects : List ValidationObject) : List ValidationObject :=
  objects.map fun obj =>
    let obj := { obj with last_visited := some now }
    if !vat_syntax_valid obj.value then
      { obj with status := "check", status_message := "Invalid VAT ID syntax" }
    else if !is_valid_vat_checksum obj.value then
      { obj with status := "check", status_message := "Invalid VAT ID checksum" }
    else
      { obj with status := "formal ok", status_message := "API check outstanding" }

/-! ## `validate_URL.py` -/

/-- The scheme-adding test in `validate_fast`:
`re.match(r"^(?:http|ftp)s?://", url)` (case-sensitive, unlike the full
syntax regex). -/
def hasUrlScheme (url : List Char) : Bool :=
  startsWithLit "http://".data url || startsWithLit "https://".data url ||
  startsWithLit "ftp://".data url || startsWithLit "ftps://".data url

/-- `[A-F0-9]` on upper-cased input. -/
def isHexAF (c : Char) : Bool := c.isDigit || ('A' ≤ c && c ≤ 'F')

/-- Split a character list at `.` separators. -/
def splitDots : List Char → List (List Char)
  | [] => [[]]
  | c :: rest =>
    let r := splitDots rest
    if c == '.' then [] :: r
    else (c :: r.headD []) :: r.tail

/-- One domain label: `[A-Z0-9](?:[A-Z0-9-]{0,61}[A-Z0-9])?`. -/
def labelMatch : List Char → Bool
  | [] => false
  | [c] => c.isAlphanum
  | c :: rest =>
    c.isAlphanum && (rest.getLast?.elim false Char.isAlphanum) &&
    rest.dropLast.all (fun d => d.isAlphanum || d == '-') &&
    decide (rest.dropLast.length ≤ 61)

/-- The final domain component: `[A-Z]{2,6}` or `[A-Z0-9-]{2,}`. -/
def tldMatch (t : List Char) : Bool :=
  (decide (2 ≤ t.length) && decide (t.length ≤ 6) && t.all isUpperAZ) ||
  (decide (2 ≤ t.length) && t.all (fun c => c.isAlphanum || c == '-'))

/-- The dotted-domain alternative `(?:label\.)+(?:tld\.?)`. -/
def domainMatch (h : List Char) : Bool :=
  let parts := splitDots h
  let parts := if parts.getLast? == some [] then parts.dropLast else parts
  decide (2 ≤ parts.length) && parts.dropLast.all labelMatch &&
  (parts.getLast?.elim false tldMatch)

/-- The IPv4 alternative `\d{1,3}(\.\d{1,3}){3}`. -/
def ipv4Match (h : List Char) : Bool :=
  let parts := splitDots h
  parts.length == 4 && parts.all (digitsBetween 1 3)

/-- The IPv6 alternative `\[?[A-F0-9]*:[A-F0-9:]+\]?`. -/
def ipv6Match (h : List Char) : Bool :=
  let body := if startsWithLit ['['] h then h.drop 1 else h
  let body := if endsWithLit [']'] body then body.dropLast else body
  let pre := body.takeWhile (fun c => c != ':')
  let post := body.drop (pre.length + 1)
  decide (pre.length < body.length) && !post.isEmpty &&
  pre.all isHexAF && post.all (fun c => isHexAF c || c == ':')

/-- Host alternation: domain, `localhost`, IPv4, or IPv6 (upper-cased input). -/
def hostMatch (h : List Char) : Bool :=
  domainMatch h || h == "LOCALHOST".data || ipv4Match h || ipv6Match h

/-- `host` optionally followed by a `:digits` port (`(?::\d+)?`). -/
def hostPortMatch (hp : List Char) : Bool :=
  hostMatch hp ||
  (let revPort := hp.reverse.takeWhile (fun c => c != ':')
   decide (revPort.length < hp.length) && !revPort.isEmpty &&
   revPort.all Char.isDigit && hostMatch (hp.take (hp.length - revPort.length - 1)))

/-- Trailing path: `(?:/?|[/?]\S+)$`. -/
def pathMatch : List Char → Bool
  | [] => true
  | [c] => c == '/'
  | c :: rest => (c == '/' || c == '?') && rest.all (fun d => !d.isWhitespace)

/-- `validate_URL.is_valid_url`: the anchored, case-insensitive syntax
regex — scheme, then host alternation, optional port, optional path.
Case-insensitivity is modelled by upper-casing the input and matching the
upper-cased character classes.  The host never contains `/` or `?`, so the
split between host[:port] and path is at the first such character. -/
def is_valid_url (url : String) : Bool :=
  let u := pyUpper url.data
  let rest :=
    if startsWithLit "HTTPS://".data u then some (u.drop 8)
    else if startsWithLit "HTTP://".data u then some (u.drop 7)
    else if startsWithLit "FTPS://".data u then some (u.drop 8)
    else if startsWithLit "FTP://".data u then some (u.drop 6)
    else none
  match rest with
  | none => false
  | some r =>
    let hostPort := r.takeWhile (fun c => c != '/' && c != '?')
    let path := r.drop hostPort.length
    !hostPort.isEmpty && hostPortMatch hostPort && pathMatch path

/-- `validate_URL.validate_fast`: stamp `last_visited`, prepend `http://`
when no scheme is present, then the syntax check. -/
def urlValidateFast (now : Nat) (objects : List ValidationObject) : List ValidationObject :=
  objects.map fun obj =>
    let obj := { obj with last_visited := some now }
    let url := obj.value
    let url := if !hasUrlScheme url.data then String.mk ("http://".data ++ url.data) else url
    if !is_valid_url url then
      { obj with status := "check", status_message := "Invalid URL syntax" }
    else
      { obj with status := "formal ok", status_message := "API check outstanding" }

/-! ### URL slow phase

The slow phase's network behaviour is a parameter: `httpHead`/`httpGet`
map a URL to `Except e code` — `.ok code` is a response with that HTTP
status code (redirects already followed), `.error e` is a raised exception
with text `e`.  Both requests happen inside one `try`, so an exception in
either maps to `check`. -/

structure AccountStatus where
  total_count : Nat
  limit : Nat
deriving DecidableEq, Repr

structure VatNumberResult where
  country_code : String
  vat_number : String
  valid : Option Bool
  trader_json : String
deriving DecidableEq, Repr

structure BulkResult where
  numbers : List VatNumberResult
  errors : Option String
deriving DecidableEq, Repr

/-- Eventual outcome of the VIES polling loop: a ready batch result, or a
last-error code other than `BATCH_PROCESSING` (which aborts the call).
A batch that stays in processing forever never leaves the Python loop and
has no terminating outcome to model. -/
inductive PollOutcome where
  | ready (r : BulkResult)
  | apiError (code : Nat) (msg : String)
deriving DecidableEq, Repr

/-- External world handed to the validators: the clock, the HTTP probe
behaviour, and the VIES account/poll responses. -/
structure Env where
  now : Nat
  httpHead : String → Except String Nat
  httpGet : String → Except String Nat
  account : Option AccountStatus
  poll : PollOutcome

/-- `ping_url`'s scheme forcing: ensure `https://`. -/
def forceHttps (url : String) : String :=
  let cs := url.data
  if !startsWithLit "http://".data cs && !startsWithLit "https://".data cs then
    String.mk ("https://".data ++ cs)
  else if startsWithLit "http://".data cs then
    String.mk ("https://".data ++ cs.drop 7)
  else url

/-- `validate_URL.ping_url`: force https, HEAD; on a status `< 400` the
URL is `ok`; otherwise fall back to GET; on `< 400` `ok`, else `check`
with the code; any exception maps to `check` with the exception text. -/
def pingUrl (env : Env) (url : String) : String × String :=
  let url := forceHttps url
  match env.httpHead url with
  | .error e => ("check", "Exception: " ++ e)
  | .ok code =>
    if code < 400 then ("ok", "")
    else
      match env.httpGet url with
      | .error e => ("check", "Exception: " ++ e)
      | .ok code2 =>
        if code2 < 400 then ("ok", "")
        else ("check", "HTTP error: " ++ toString code2)

/-- `validate_URL.validate_slow`: every record is probed (one task per
record, joined before returning; the tasks only touch their own record, so
the join is the per-record map below), `last_visited` always stamped. -/
def urlValidateSlow (env : Env) (objects : List ValidationObject) : List ValidationObject :=
  objects.map fun obj =>
    { obj with last_visited := some env.now,
               status := (pingUrl env obj.value).1,
               status_message := (pingUrl env obj.value).2 }

/-! ## `validate_VAT_ID.py` — slow phase -/

/-- Per-identifier result application (the two branches of the
`for number in numbers` body). -/
def applyViesResult (now : Nat) (nr : VatNumberResult) (obj : ValidationObject) :
    ValidationObject :=
  let obj := { obj with last_visited := some now }
  if nr.valid == some false then
    { obj with additional_information := "", status := "check",
               status_message := "Invalid VAT ID (API check)" }
  else
    { obj with additional_information := nr.trader_json,
               status := "ok", status_message := "" }

/-- The inner `for obj in objects: ... break` — update only the first
object satisfying the predicate. -/
def updateFirst (p : ValidationObject → Bool) (f : ValidationObject → ValidationObject) :
    List ValidationObject → List ValidationObject
  | [] => []
  | x :: xs => if p x then f x :: xs else x :: updateFirst p f xs

/-- `validate_VAT_ID.validate_slow`: quota gate (return the batch as-is
when `total_count >= limit`), then the bulk job; an API error other than
`BATCH_PROCESSING`, a missing `numbers` list, or reported batch errors all
return the batch unmodified; otherwise each returned number updates the
first object whose value is `country_code + vat_number`. -/
def vatValidateSlow (env : Env) (objects : List ValidationObject) : List ValidationObject :=
  let quotaExhausted :=
    match env.account with
    | some a => decide (a.total_count ≥ a.limit)
    | none => false
  if quotaExhausted then objects
  else
    match env.poll with
    | .apiError _ _ => objects
    | .ready result =>
      if result.numbers.isEmpty then objects
      else if result.errors.isSome then objects
      else
        result.numbers.foldl
          (fun objs nr =>
            updateFirst (fun obj => obj.value == nr.country_code ++ nr.vat_number)
              (applyViesResult env.now nr) objs)
          objects

/-! ## Validator registry (`main.py` `CLASS_MAPPING`)

A Python class is modelled by the phase methods it actually defines:
`validate_IBAN` defines only `validate`, so its `validate_fast?` and
`validate_slow?` are `none` (calling them raises `AttributeError`). -/

structure ValidatorClass where
  validate_fast? : Option (Env → List ValidationObject → List ValidationObject)
  validate_slow? : Option (Env → List ValidationObject → List ValidationObject)
  validate? : Option (Env → List ValidationObject → List ValidationObject)

def validate_URL_class : ValidatorClass where
  validate_fast? := some fun env objs => urlValidateFast env.now objs
  validate_slow? := some urlValidateSlow
  validate? := none

def validate_IBAN_class : ValidatorClass where
  validate_fast? := none
  validate_slow? := none
  validate? := some fun env objs => ibanValidate env.now objs

def validate_VAT_ID_class : ValidatorClass where
  validate_fast? := some fun env objs => vatValidateFast env.now objs
  validate_slow? := some vatValidateSlow
  validate? := none

def CLASS_MAPPING (classification : String) : Option ValidatorClass :=
  if classification == "URL" then some validate_URL_class
  else if classification == "IBAN" then some validate_IBAN_class
  else if classification == "VAT_ID" then some validate_VAT_ID_class
  else none

/-! ## `main.py` — fetch, persist, and the convergence sweep

The HANA table `GENIUS.SHARED_NAIGENT_DATA` is modelled as a
`List ValidationObject` (its rows); `get_objects` transcribes the
SELECT's WHERE / ORDER BY / LIMIT, `update_objects` the keyed UPDATE.
`ADD_DAYS(CURRENT_DATE, history)` becomes an abstract `cutoff` timestamp;
`COALESCE(LAST_VISITED,'2000-01-01')` coalesces to the minimal key `0`. -/

inductive Phase where
  | fast
  | slow
deriving DecidableEq, Repr

/-- Fast-phase row filter:
`LAST_VISITED IS NULL OR LAST_VISITED < ADD_DAYS(CURRENT_DATE, history)`. -/
def fastEligible (cutoff : Nat) (r : ValidationObject) : Bool :=
  match r.last_visited with
  | none => true
  | some t => decide (t < cutoff)

/-- The full WHERE clause: classification match plus the phase filter
(`STATUS = 'formal ok'` for the slow phase). -/
def eligiblePred (cutoff : Nat) (mode : Phase) (c : String) (r : ValidationObject) : Bool :=
  r.classification == c &&
  (match mode with
   | .fast => fastEligible cutoff r
   | .slow => r.status == "formal ok")

/-- Lexicographic `≤` on character lists (SQL `VALUE ASC`). -/
def charListLe : List Char → List Char → Bool
  | [], _ => true
  | _ :: _, [] => false
  | a :: as, b :: bs => a < b || (a == b && charListLe as bs)

/-- `ORDER BY COALESCE(LAST_VISITED,'2000-01-01') ASC, VALUE ASC`. -/
def sortLe (r₁ r₂ : ValidationObject) : Bool :=
  r₁.last_visited.getD 0 < r₂.last_visited.getD 0 ||
  (r₁.last_visited.getD 0 == r₂.last_visited.getD 0 &&
   charListLe r₁.value.data r₂.value.data)

/-- `main.get_objects`: filter, order, `LIMIT batchsize`, and materialize
each row as a `ValidationObject` whose `last_visited` is hard-coded
`None` (the stored timestamp is *not* copied out).  The ORDER BY is
realized as a stable sort by `sortLe` (stable sorts under the same total
preorder agree, so the algorithm choice is immaterial). -/
def get_objects (store : List ValidationObject) (classification : String)
    (batchsize : Nat) (cutoff : Nat) (mode : Phase) : List ValidationObject :=
  ((List.insertionSort (fun r₁ r₂ => sortLe r₁ r₂)
      (store.filter (eligiblePred cutoff mode classification))).take
    batchsize).map fun r => { r with last_visited := none }

/-- The UPDATE's SET clause: status, message, timestamp, payload; the key
columns are untouched. -/
def applySet (o : ValidationObject) (row : ValidationObject) : ValidationObject :=
  { row with status := o.status, status_message := o.status_message,
             last_visited := o.last_visited,
             additional_information := o.additional_information }

/-- `main.update_objects`: only objects with a non-null `last_visited` are
written; each executes
`UPDATE ... WHERE CLASSIFICATION = ? AND VALUE = ?` against the store, in
list order. -/
def update_objects (store : List ValidationObject) (objects : List ValidationObject) :
    List ValidationObject :=
  (objects.filter fun o => !o.last_visited.isNone).foldl
    (fun st o =>
      st.map fun row =>
        if row.classification == o.classification && row.value == o.value then
          applySet o row
        else row)
    store

/-! ### The fast-phase convergence sweep (`main.main`, first `while True`)

The sweep is parametric in the registry `reg` — `main.py` passes
`classification in CLASS_MAPPING` plus the class's `validate_fast`; a
classification outside the mapping gets `none` (warn, leave the batch
unprocessed).  One `processClass` call is one loop body iteration: empty
fetch sets the classification's `final` flag; otherwise the validated
batch is persisted (registered) or nothing happens (unregistered). -/

def processClass (reg : String → Option (List ValidationObject → List ValidationObject))
    (b cutoff : Nat) (st : List ValidationObject × List Bool) (c : String) :
    List ValidationObject × List Bool :=
  let objs := get_objects st.1 c b cutoff .fast
  if objs.isEmpty then (st.1, st.2 ++ [true])
  else
    match reg c with
    | some v => (update_objects st.1 (v objs), st.2 ++ [false])
    | none => (st.1, st.2 ++ [false])

/-- One round of the fast sweep: one batch per classification, in
enumeration order, returning the evolved store and the `final` flags. -/
def roundFast (reg : String → Option (List ValidationObject → List ValidationObject))
    (cs : List String) (b cutoff : Nat) (store : List ValidationObject) :
    List ValidationObject × List Bool :=
  cs.foldl (processClass reg b cutoff) (store, [])

/-- The `while True` loop, fuel-indexed: returns `some (rounds, store)`
when every classification reported an empty batch within `fuel` rounds
(`rounds` counts the executed rounds, that final all-empty round
included); `none` when the loop is still running after `fuel` rounds. -/
def sweepFast (reg : String → Option (List ValidationObject → List ValidationObject))
    (cs : List String) (b cutoff : Nat) :
    Nat → List ValidationObject → Option (Nat × List ValidationObject)
  | 0, _ => none
  | fuel + 1, store =>
    let r := roundFast reg cs b cutoff store
    if r.2.all (fun f => f) then some (1, r.1)
    else (sweepFast reg cs b cutoff fuel r.1).map fun p => (p.1 + 1, p.2)

/-- Row key (`CLASSIFICATION`, `VALUE`) — the UPDATE's WHERE columns. -/
def recKey (r : ValidationObject) : String × String := (r.classification, r.value)

/-- The store's rows have pairwise distinct keys (the table's implicit
primary key, which the keyed UPDATE semantics presuppose). -/
def keysNodup (store : List ValidationObject) : Prop := (store.map recKey).Nodup

/-- A phase method obeying the dispatch contract as the fast validators
implement it: the output batch updates the input batch pointwise, keeping
the key columns and stamping `last_visited` with a fresh (not-stale)
timestamp.  `urlValidateFast`, `vatValidateFast` and `ibanValidate` all
satisfy this for any `cutoff ≤ now`. -/
def GoodValidator (cutoff : Nat) (v : List ValidationObject → List ValidationObject) : Prop :=
  ∀ objs, List.Forall₂
    (fun r r' => r'.classification = r.classification ∧ r'.value = r.value ∧
      ∃ t, r'.last_visited = some t ∧ cutoff ≤ t) objs (v objs)

/-- Number of fast-eligible rows of one classification. -/
def eligCount (cutoff : Nat) (store : List ValidationObject) (c : String) : Nat :=
  (store.filter (eligiblePred cutoff .fast c)).length

/-- The largest per-classification fast backlog. -/
def maxBacklog (cutoff : Nat) (store : List ValidationObject) (cs : List String) : Nat :=
  (cs.map (eligCount cutoff store)).foldr Nat.max 0

/-- `ceil (m / b)` on naturals. -/
def cdiv (m b : Nat) : Nat := (m + b - 1) / b

/-! ## Spec-modelled reference algorithms (for comparison with the code) -/

/-- Modelled from the spec: the German check digit as C4 words it —
`final check = (11 − product) mod 10 with 10 mapped to 0` — otherwise
identical to the code (which computes `11 - product` and maps 10 to 0
without the outer `mod 10`). -/
def germanVatSpec (number : String) : Bool :=
  let ds := number.data
  if ds.length == 9 && pyIsDigit ds then
    let check := (11 - germanProduct ds) % 10
    (if check == 10 then 0 else check) == charDigit (ds.getD 8 '0')
  else false

/-- Modelled from the spec: the Belgian rule as C3 words it — `97 minus
(the first 8 digits as an integer, mod 97)` compared with `the number
formed by the last 2 digits` — on a 10-digit, zero-leading digit string. -/
def belgianVatSpec (number : String) : Bool :=
  let ds := number.data
  if ds.length == 10 && startsWithLit ['0'] ds && pyIsDigit ds then
    97 - (strNat (ds.take 8)) % 97 == strNat (ds.drop 8)
  else false

/-! ## Shared fixtures and proof-side characterizations -/

/-- A freshly stored, never-visited record. -/
def mkRec (classification value : String) : ValidationObject :=
  { classification := classification, value := value, status := "unset",
    status_message := "", last_visited := none, additional_information := "" }

/-- Probe environment in which every URL answers 403 (HEAD and GET). -/
def env403 : Env :=
  { now := 0, httpHead := fun _ => .ok 403, httpGet := fun _ => .ok 403,
    account := none, poll := .apiError 9 "error" }

/-- Probe environment: HEAD 500, GET 404 (fallback also fails). -/
def envW : Env :=
  { now := 1, httpHead := fun _ => .ok 500, httpGet := fun _ => .ok 404,
    account := none, poll := .apiError 9 "error" }

/-- VIES environment whose account query reports the quota consumed. -/
def envQuota : Env :=
  { now := 2, httpHead := fun _ => .error "offline", httpGet := fun _ => .error "offline",
    account := some { total_count := 100, limit := 100 }, poll := .apiError 9 "error" }

/-- One keyed UPDATE applied to one row. -/
def writeStep (o : ValidationObject) (row : ValidationObject) : ValidationObject :=
  if row.classification == o.classification && row.value == o.value then applySet o row
  else row

/-- All keyed UPDATEs of a run applied to one row, in statement order. -/
def rowUpdate (written : List ValidationObject) (row : ValidationObject) : ValidationObject :=
  written.foldl (fun r o => writeStep o r) row

/-- A registered validator for the sweep witness: stamps every record. -/
def stampValidator (t : Nat) : List ValidationObject → List ValidationObject :=
  List.map fun r => { r with last_visited := some t }

/-! ## Theorems -/

/-- Interchange of the per-statement fold and the per-row map: running the
UPDATE statements over the whole table one by one equals updating each row
by all statements. -/
theorem update_objects_eq_map (store objs : List ValidationObject) :
    update_objects store objs =
      store.map (rowUpdate (objs.filter fun o => !o.last_visited.isNone)) := by
  unfold update_objects rowUpdate writeStep
  generalize (objs.filter fun o => !o.last_visited.isNone) = os
  induction os generalizing store with
  | nil => simp
  | cons o os ih =>
    simp only [List.foldl_cons, ih, List.map_map]
    rfl

/-- A row matched by no written object is untouched by `rowUpdate`. -/
theorem rowUpdate_nomatch (written : List ValidationObject) (row : ValidationObject)
    (h : ∀ o ∈ written, ¬(row.classification = o.classification ∧ row.value = o.value)) :
    rowUpdate written row = row := by
  induction written with
  | nil => rfl
  | cons o os ih =>
    have hnm : (row.classification == o.classification && row.value == o.value) = false := by
      have := h o (by simp)
      simp only [Bool.and_eq_false_iff, beq_eq_false_iff_ne, ne_eq]
      by_cases hc : row.classification = o.classification
      · exact Or.inr fun hv => this ⟨hc, hv⟩
      · exact Or.inl hc
    unfold rowUpdate at *
    simp only [List.foldl_cons, writeStep, hnm, Bool.false_eq_true, if_false]
    exact ih fun o' ho' => h o' (by simp [ho'])

/-- Each iteration of the running-product loop lands in `[1, 10]`,
whatever the incoming product and character. -/
theorem germanStep_bounds (p : Nat) (c : Char) :
    1 ≤ germanStep p c ∧ germanStep p c ≤ 10 := by
  have e : germanStep p c =
      (2 * (if (charDigit c + p) % 10 == 0 then 10 else (charDigit c + p) % 10)) % 11 := rfl
  rw [e]
  by_cases h : ((charDigit c + p) % 10 == 0) = true
  · rw [if_pos h]
    decide
  · rw [if_neg h]
    have hne : (charDigit c + p) % 10 ≠ 0 := by
      simpa using h
    have hlt : (charDigit c + p) % 10 < 10 := Nat.mod_lt _ (by omega)
    omega

/-- The running product stays in `[1, 10]` along the whole fold. -/
theorem foldl_germanStep_bounds : ∀ (l : List Char) (p : Nat), 1 ≤ p → p ≤ 10 →
    1 ≤ l.foldl germanStep p ∧ l.foldl germanStep p ≤ 10
  | [], _, h1, h2 => ⟨h1, h2⟩
  | c :: l, p, _, _ =>
    foldl_germanStep_bounds l (germanStep p c) (germanStep_bounds p c).1
      (germanStep_bounds p c).2

theorem germanProduct_bounds (ds : List Char) :
    1 ≤ germanProduct ds ∧ germanProduct ds ≤ 10 :=
  foldl_germanStep_bounds _ 10 (by omega) (by omega)

/-- On products in `[1, 10]` the code's final step (`11 - product`, 10
mapped to 0) agrees with the spec's (`(11 - product) mod 10`, 10 mapped
to 0). -/
theorem german_checkdigit_eq (p : Nat) (h1 : 1 ≤ p) (h2 : p ≤ 10) :
    (if (11 - p : Nat) == 10 then (0 : Nat) else 11 - p) =
      (if ((11 - p : Nat) % 10) == 10 then (0 : Nat) else (11 - p) % 10) := by
  interval_cases p <;> decide

/-- C4 (confirmed): the German VAT checksum is the running-product
algorithm exactly as the claim describes it — the code's check-digit
computation agrees with the spec's `(11 − product) mod 10` formulation on
every input — and the fast phase maps `"DE136695976"` to
`formal ok` (the spec's `formal-ok`) and `"DE136695975"` to `check` with
message `"Invalid VAT ID checksum"`. -/
theorem c4_german_vat_checksum :
    (∀ number : String, is_valid_german_vat_checksum number = germanVatSpec number) ∧
    vatValidateFast 7 [mkRec "VAT_ID" "DE136695976"] =
      [{ (mkRec "VAT_ID" "DE136695976") with
          last_visited := some 7, status := "formal ok",
          status_message := "API check outstanding" }] ∧
    vatValidateFast 7 [mkRec "VAT_ID" "DE136695975"] =
      [{ (mkRec "VAT_ID" "DE136695975") with
          last_visited := some 7, status := "check",
          status_message := "Invalid VAT ID checksum" }] := by
  refine ⟨fun number => ?_, by decide, by decide⟩
  unfold is_valid_german_vat_checksum germanVatSpec
  by_cases hg : (number.data.length == 9 && pyIsDigit number.data) = true
  · rw [if_pos hg, if_pos hg]
    obtain ⟨h1, h2⟩ := germanProduct_bounds number.data
    simp only [german_checkdigit_eq _ h1 h2]
  · rw [if_neg hg, if_neg hg]

/-- C3 (code bug): on the genuinely valid zero-leading Belgian VAT number
`0123456749` (first 8 digits `01234567`, `97 - 1234567 % 97 = 49` = last
two digits) the code rejects, because it takes its base from `number[1:9]`
— digits 2–9, overlapping the check digits — instead of the first 8
digits; via the fast phase, `BE0123456749` is marked `check`. -/
theorem c3_belgian_checksum_bug :
    is_valid_belgian_vat_checksum "0123456749" = false ∧
    belgianVatSpec "0123456749" = true ∧
    vatValidateFast 4 [mkRec "VAT_ID" "BE0123456749"] =
      [{ (mkRec "VAT_ID" "BE0123456749") with
          last_visited := some 4, status := "check",
          status_message := "Invalid VAT ID checksum" }] :=
  ⟨by decide, by decide, by decide⟩

/-- C5 (confirmed): the IBAN checksum accepts exactly the strings whose
first four characters, rotated to the end and expanded to decimal digits
through the base-36 character values, denote an integer congruent to 1
mod 97; and validating the record value `"GB82WEST12345698765432"` sets
status `ok` with an empty message. -/
theorem c5_iban_checksum :
    (∀ iban : String,
      is_valid_iban_checksum iban = true ↔
        ibanNumeric (iban.data.drop 4 ++ iban.data.take 4) % 97 = 1) ∧
    ibanValidate 3 [mkRec "IBAN" "GB82WEST12345698765432"] =
      [{ (mkRec "IBAN" "GB82WEST12345698765432") with
          last_visited := some 3, status := "ok", status_message := "" }] := by
  refine ⟨fun iban => ?_, by decide⟩
  unfold is_valid_iban_checksum
  simp

/-- C6 (confirmed): when the initial VIES account query reports the
consumed count at (or beyond) the account limit, the slow phase returns
the input batch itself — every record keeps its status, message,
`last_visited` and `additional_information`. -/
theorem c6_quota_frame (env : Env) (objs : List ValidationObject) (a : AccountStatus)
    (hacc : env.account = some a) (hq : a.limit ≤ a.total_count) :
    vatValidateSlow env objs = objs := by
  unfold vatValidateSlow
  rw [hacc]
  simp [hq]

theorem c6_quota_frame_witness :
    vatValidateSlow envQuota [mkRec "VAT_ID" "DE136695976"] = [mkRec "VAT_ID" "DE136695976"] :=
  c6_quota_frame envQuota [mkRec "VAT_ID" "DE136695976"]
    { total_count := 100, limit := 100 } rfl (by decide)

/-- C2, counterexample: an HTTP 403 answer (HEAD and GET) yields
`("check", "HTTP error: 403")`, not the claimed `ok`-with-bot-blocking-note
— the code has no 403 special case. -/
theorem c2_counterexample_403 :
    pingUrl env403 "http://example.com" = ("check", "HTTP error: 403") ∧
    urlValidateSlow env403 [mkRec "URL" "example.com"] =
      [{ (mkRec "URL" "example.com") with
          last_visited := some 0, status := "check",
          status_message := "HTTP error: 403" }] :=
  ⟨by decide, by decide⟩

/-- C2 (amended): the URL slow phase sets each record's status and message
from `ping_url`, whose outcome mapping is: HEAD status `< 400` ⇒
`("ok", "")`; HEAD `≥ 400` but GET fallback `< 400` ⇒ `("ok", "")`; both
`≥ 400` (403 included, no special case) ⇒ `("check", "HTTP error: <code>")`. -/
theorem c2_url_slow_outcomes (env : Env) (url : String) :
    (∀ c, env.httpHead (forceHttps url) = .ok c → c < 400 →
      pingUrl env url = ("ok", "")) ∧
    (∀ c c', env.httpHead (forceHttps url) = .ok c → 400 ≤ c →
      env.httpGet (forceHttps url) = .ok c' → c' < 400 →
      pingUrl env url = ("ok", "")) ∧
    (∀ c c', env.httpHead (forceHttps url) = .ok c → 400 ≤ c →
      env.httpGet (forceHttps url) = .ok c' → 400 ≤ c' →
      pingUrl env url = ("check", "HTTP error: " ++ toString c')) ∧
    (∀ objs, urlValidateSlow env objs = objs.map fun obj =>
      { obj with last_visited := some env.now,
                 status := (pingUrl env obj.value).1,
                 status_message := (pingUrl env obj.value).2 }) := by
  refine ⟨fun c hh hlt => ?_, fun c c' hh hge hg hlt => ?_,
    fun c c' hh hge hg hge' => ?_, fun objs => rfl⟩
  · simp only [pingUrl]
    rw [hh]
    simp [hlt]
  · simp only [pingUrl]
    rw [hh]
    have h1 : ¬(c < 400) := by omega
    simp [h1, hg, hlt]
  · simp only [pingUrl]
    rw [hh]
    have h1 : ¬(c < 400) := by omega
    have h2 : ¬(c' < 400) := by omega
    simp [h1, hg, h2]

theorem c2_url_slow_outcomes_witness :
    pingUrl envW "http://x.de" = ("check", "HTTP error: " ++ toString 404) :=
  (c2_url_slow_outcomes envW "http://x.de").2.2.1 500 404 rfl (by omega) rfl (by omega)

/-- C8 (confirmed): the slow-phase fetch only ever returns records whose
status is `formal ok` (the spec's `formal-ok`); in particular never one
with status `check`. -/
theorem c8_slow_fetch_gating (store : List ValidationObject) (c : String)
    (b cutoff : Nat) (r : ValidationObject)
    (h : r ∈ get_objects store c b cutoff .slow) :
    r.status = "formal ok" ∧ r.status ≠ "check" := by
  unfold get_objects at h
  obtain ⟨r₀, hr₀, rfl⟩ := List.mem_map.mp h
  have h1 := List.mem_of_mem_take hr₀
  have h2 := (List.perm_insertionSort _ _).subset h1
  have h3 := (List.mem_filter.mp h2).2
  simp only [eligiblePred, Bool.and_eq_true, beq_iff_eq] at h3
  exact ⟨h3.2, by simp [h3.2]⟩

theorem c8_slow_fetch_gating_witness :
    ({ classification := "VAT_ID", value := "DE136695976", status := "formal ok",
       status_message := "API check outstanding", last_visited := none,
       additional_information := "" } : ValidationObject).status = "formal ok" ∧
    ({ classification := "VAT_ID", value := "DE136695976", status := "formal ok",
       status_message := "API check outstanding", last_visited := none,
       additional_information := "" } : ValidationObject).status ≠ "check" :=
  c8_slow_fetch_gating
    [{ classification := "VAT_ID", value := "DE136695976", status := "formal ok",
       status_message := "API check outstanding", last_visited := some 1,
       additional_information := "" }]
    "VAT_ID" 5 0 _ (by decide)

/-- C9 (confirmed): every fetched record is materialized with a null
`last_visited` whatever the stored timestamp; only objects with a non-null
`last_visited` are among the UPDATE parameters; and a stored row matched
by no written object is returned unchanged by `update_objects`. -/
theorem c9_persist_iff_visited :
    (∀ store c b cutoff mode r, r ∈ get_objects store c b cutoff mode →
      r.last_visited = none) ∧
    (∀ (objs : List ValidationObject) (o : ValidationObject), o.last_visited = none →
      o ∉ objs.filter fun o => !o.last_visited.isNone) ∧
    (∀ store objs, List.Forall₂
      (fun row row' =>
        (∀ o ∈ objs, o.last_visited ≠ none →
          ¬(row.classification = o.classification ∧ row.value = o.value)) → row' = row)
      store (update_objects store objs)) := by
  refine ⟨fun store c b cutoff mode r h => ?_, fun objs o hnone hmem => ?_,
    fun store objs => ?_⟩
  · unfold get_objects at h
    obtain ⟨r₀, _, rfl⟩ := List.mem_map.mp h
    rfl
  · have := (List.mem_filter.mp hmem).2
    rw [hnone] at this
    simp at this
  · rw [update_objects_eq_map]
    rw [List.forall₂_map_right_iff]
    refine List.forall₂_same.mpr fun row _ hrow => ?_
    refine rowUpdate_nomatch _ _ fun o ho => ?_
    have hoin := (List.mem_filter.mp ho).1
    have holv : o.last_visited ≠ none := by
      have := (List.mem_filter.mp ho).2
      simp only [Bool.not_eq_true', Option.isNone_eq_false_iff] at this
      exact Option.isSome_iff_ne_none.mp this
    exact hrow o hoin holv

theorem c9_persist_iff_visited_witness :
    ({ classification := "URL", value := "example.com", status := "formal ok",
       status_message := "API check outstanding", last_visited := none,
       additional_information := "" } : ValidationObject).last_visited = none :=
  c9_persist_iff_visited.1
    [{ classification := "URL", value := "example.com", status := "formal ok",
       status_message := "API check outstanding", last_visited := some 3,
       additional_information := "" }]
    "URL" 5 9 .fast _ (by decide)

/-- C10, counterexample: the claim's own example — a lowercase
`"de136695975"` (raw form differs from the normalized form) — is *not*
set to `formal ok`: the checksum dispatch upper-cases the raw two-letter
prefix, so the German algorithm runs and rejects. -/
theorem c10_counterexample_lowercase :
    vatValidateFast 4 [mkRec "VAT_ID" "de136695975"] =
      [{ (mkRec "VAT_ID" "de136695975") with
          last_visited := some 4, status := "check",
          status_message := "Invalid VAT ID checksum" }] := by decide

/-- C10 (amended): the syntax check runs on the normalized (trimmed,
upper-cased) value while the checksum dispatch upper-cases the raw first
two characters and hands the raw remainder to the country algorithm,
defaulting to accept when that prefix matches no known country; so a
syntactically valid value whose raw prefix differs from a country code by
more than letter case (e.g. by leading whitespace) becomes `formal ok`
with no checksum ever evaluated. -/
theorem c10_dispatch_on_raw_prefix (now : Nat) (obj : ValidationObject)
    (hsyn : vat_syntax_valid obj.value = true)
    (hcc : pyUpper (obj.value.data.take 2) ∉
      ["DE".data, "AT".data, "CH".data, "IT".data, "NL".data, "BE".data, "SE".data]) :
    vatValidateFast now [obj] =
      [{ obj with
          last_visited := some now, status := "formal ok",
          status_message := "API check outstanding" }] := by
  have hcs : is_valid_vat_checksum obj.value = true := by
    unfold is_valid_vat_checksum
    simp only [List.mem_cons, List.not_mem_nil, or_false, not_or] at hcc
    obtain ⟨h1, h2, h3, h4, h5, h6, h7⟩ := hcc
    rw [if_neg (by simp [h1]), if_neg (by simp [h2]), if_neg (by simp [h3]),
        if_neg (by simp [h4]), if_neg (by simp [h5]), if_neg (by simp [h6]),
        if_neg (by simp [h7])]
  unfold vatValidateFast
  simp [hsyn, hcs]

theorem c10_dispatch_on_raw_prefix_witness :
    vatValidateFast 2 [mkRec "VAT_ID" " DE136695975"] =
      [{ (mkRec "VAT_ID" " DE136695975") with
          last_visited := some 2, status := "formal ok",
          status_message := "API check outstanding" }] :=
  c10_dispatch_on_raw_prefix 2 (mkRec "VAT_ID" " DE136695975") (by decide) (by decide)

/-- Pointwise mapping yields a `Forall₂` relation. -/
theorem forall₂_map_self {R : ValidationObject → ValidationObject → Prop}
    (f : ValidationObject → ValidationObject) (h : ∀ a, R a (f a)) :
    ∀ l : List ValidationObject, List.Forall₂ R l (l.map f)
  | [] => List.Forall₂.nil
  | a :: l => List.Forall₂.cons (h a) (forall₂_map_self f h l)

/-- `updateFirst` relates the list to its update pointwise, given a
reflexive relation the update respects. -/
theorem updateFirst_forall₂ {R : ValidationObject → ValidationObject → Prop}
    (hR : ∀ a, R a a) (p : ValidationObject → Bool)
    (f : ValidationObject → ValidationObject) (hf : ∀ a, R a (f a)) :
    ∀ l, List.Forall₂ R l (updateFirst p f l)
  | [] => List.Forall₂.nil
  | x :: xs => by
    unfold updateFirst
    by_cases hp : p x = true
    · rw [if_pos hp]
      exact List.Forall₂.cons (hf x) (List.forall₂_same.mpr fun a _ => hR a)
    · rw [if_neg hp]
      exact List.Forall₂.cons (hR x) (updateFirst_forall₂ hR p f hf xs)

/-- Key preservation composes. -/
theorem keyPres_trans {a b c : List ValidationObject}
    (h₁ : List.Forall₂
      (fun r r' => r'.classification = r.classification ∧ r'.value = r.value) a b)
    (h₂ : List.Forall₂
      (fun r r' => r'.classification = r.classification ∧ r'.value = r.value) b c) :
    List.Forall₂
      (fun r r' => r'.classification = r.classification ∧ r'.value = r.value) a c := by
  induction h₁ generalizing c with
  | nil => cases h₂; exact List.Forall₂.nil
  | cons hab h ih =>
    cases h₂ with
    | cons hbc h' =>
      exact List.Forall₂.cons ⟨hbc.1.trans hab.1, hbc.2.trans hab.2⟩ (ih h')

/-- `applyViesResult` keeps the key columns. -/
theorem applyViesResult_keyPres (now : Nat) (nr : VatNumberResult)
    (a : ValidationObject) :
    (applyViesResult now nr a).classification = a.classification ∧
    (applyViesResult now nr a).value = a.value := by
  unfold applyViesResult
  by_cases h : (nr.valid == some false) = true
  · rw [if_pos h]
    exact ⟨rfl, rfl⟩
  · rw [if_neg h]
    exact ⟨rfl, rfl⟩

/-- The VAT slow phase returns every input record (possibly updated in
place): output and input agree pointwise on the key columns. -/
theorem vatValidateSlow_keyPres (env : Env) (objs : List ValidationObject) :
    List.Forall₂
      (fun r r' => r'.classification = r.classification ∧ r'.value = r.value)
      objs (vatValidateSlow env objs) := by
  have hrefl : ∀ l : List ValidationObject, List.Forall₂
      (fun r r' => r'.classification = r.classification ∧ r'.value = r.value) l l :=
    fun l => List.forall₂_same.mpr fun a _ => ⟨rfl, rfl⟩
  unfold vatValidateSlow
  by_cases hq : (match env.account with
    | some a => decide (a.total_count ≥ a.limit)
    | none => false) = true
  · rw [if_pos hq]
    exact hrefl objs
  · rw [if_neg hq]
    cases env.poll with
    | apiError code msg => exact hrefl objs
    | ready result =>
      by_cases hn : result.numbers.isEmpty = true
      · simp only [hn, if_true]
        exact hrefl objs
      · simp only [hn, Bool.false_eq_true, if_false]
        by_cases he : result.errors.isSome = true
        · simp only [he, if_true]
          exact hrefl objs
        · simp only [he, Bool.false_eq_true, if_false]
          -- fold over the returned numbers, each step an `updateFirst`
          generalize result.numbers = ns
          induction ns generalizing objs with
          | nil => exact hrefl objs
          | cons nr ns ih =>
            rw [List.foldl_cons]
            refine keyPres_trans ?_ (ih _)
            exact updateFirst_forall₂ (fun a => ⟨rfl, rfl⟩) _ _
              (fun a => applyViesResult_keyPres env.now nr a) objs

/-- C1, counterexample: the classification `IBAN` is registered, but its
validator class defines neither `validate_fast` nor `validate_slow` —
the phase method the orchestrator invokes does not exist (`AttributeError`
in Python). -/
theorem c1_counterexample_iban_dispatch :
    CLASS_MAPPING "IBAN" = some validate_IBAN_class ∧
    validate_IBAN_class.validate_fast? = none ∧
    validate_IBAN_class.validate_slow? = none :=
  ⟨rfl, rfl, rfl⟩

/-- The URL fast phase keeps the key columns of every record. -/
theorem urlValidateFast_keyPres (now : Nat) (objs : List ValidationObject) :
    List.Forall₂
      (fun r r' => r'.classification = r.classification ∧ r'.value = r.value)
      objs (urlValidateFast now objs) := by
  unfold urlValidateFast
  refine forall₂_map_self _ (fun a => ?_) objs
  refine ⟨?_, ?_⟩ <;> (dsimp only; split_ifs <;> rfl)

/-- The VAT fast phase keeps the key columns of every record. -/
theorem vatValidateFast_keyPres (now : Nat) (objs : List ValidationObject) :
    List.Forall₂
      (fun r r' => r'.classification = r.classification ∧ r'.value = r.value)
      objs (vatValidateFast now objs) := by
  unfold vatValidateFast
  refine forall₂_map_self _ (fun a => ?_) objs
  refine ⟨?_, ?_⟩ <;> (dsimp only; split_ifs <;> rfl)

/-- The single IBAN operation keeps the key columns of every record. -/
theorem ibanValidate_keyPres (now : Nat) (objs : List ValidationObject) :
    List.Forall₂
      (fun r r' => r'.classification = r.classification ∧ r'.value = r.value)
      objs (ibanValidate now objs) := by
  unfold ibanValidate
  refine forall₂_map_self _ (fun a => ?_) objs
  refine ⟨?_, ?_⟩ <;> (dsimp only; split_ifs <;> rfl)

/-- C1 (amended): the URL and VAT_ID validator classes expose both phase
operations, and each is total over its batch — every input record appears
(updated in place, keys preserved, in order) in the returned batch; the
IBAN validator class instead exposes only the single combined `validate`
operation (itself total in the same sense), so the phase methods the
orchestrator calls do not exist for IBAN. -/
theorem c1_dispatch_contract :
    (∃ f, validate_URL_class.validate_fast? = some f ∧ ∀ env objs, List.Forall₂
      (fun r r' => r'.classification = r.classification ∧ r'.value = r.value)
      objs (f env objs)) ∧
    (∃ f, validate_URL_class.validate_slow? = some f ∧ ∀ env objs, List.Forall₂
      (fun r r' => r'.classification = r.classification ∧ r'.value = r.value)
      objs (f env objs)) ∧
    (∃ f, validate_VAT_ID_class.validate_fast? = some f ∧ ∀ env objs, List.Forall₂
      (fun r r' => r'.classification = r.classification ∧ r'.value = r.value)
      objs (f env objs)) ∧
    (∃ f, validate_VAT_ID_class.validate_slow? = some f ∧ ∀ env objs, List.Forall₂
      (fun r r' => r'.classification = r.classification ∧ r'.value = r.value)
      objs (f env objs)) ∧
    (validate_IBAN_class.validate_fast? = none ∧
     validate_IBAN_class.validate_slow? = none ∧
     ∃ f, validate_IBAN_class.validate? = some f ∧ ∀ env objs, List.Forall₂
      (fun r r' => r'.classification = r.classification ∧ r'.value = r.value)
      objs (f env objs)) := by
  refine ⟨⟨_, rfl, fun env objs => urlValidateFast_keyPres env.now objs⟩,
    ⟨_, rfl, fun env objs => ?_⟩,
    ⟨_, rfl, fun env objs => vatValidateFast_keyPres env.now objs⟩,
    ⟨_, rfl, fun env objs => vatValidateSlow_keyPres env objs⟩,
    rfl, rfl, ⟨_, rfl, fun env objs => ibanValidate_keyPres env.now objs⟩⟩
  · unfold urlValidateSlow
    exact forall₂_map_self _ (fun a => ⟨rfl, rfl⟩) objs

/-! ### Convergence-sweep lemmas (C7) -/

/-- Splitting a count by a second predicate. -/
theorem countP_split {α : Type} (l : List α) (p q : α → Bool) :
    l.countP p = (l.countP fun a => p a && q a) + (l.countP fun a => p a && !q a) := by
  induction l with
  | nil => rfl
  | cons a l ih =>
    by_cases hp : p a = true <;> by_cases hq : q a = true <;>
      simp [List.countP_cons, hp, hq, ih] <;> omega

/-- A member of the right list of a `Forall₂` has a related left partner. -/
theorem forall₂_mem_right {α β : Type} {R : α → β → Prop} :
    ∀ {l : List α} {w : List β}, List.Forall₂ R l w → ∀ o ∈ w, ∃ r ∈ l, R r o := by
  intro l w h
  induction h with
  | nil => intro o ho; cases ho
  | cons hr _ ih =>
    intro o ho
    rcases List.mem_cons.mp ho with rfl | ho'
    · exact ⟨_, by simp, hr⟩
    · obtain ⟨r, hrmem, hrel⟩ := ih o ho'
      exact ⟨r, by simp [hrmem], hrel⟩

/-- A `GoodValidator`-related output batch has the same keys, in order. -/
theorem forall₂_key_map {cutoff : Nat} :
    ∀ {objs w : List ValidationObject},
      List.Forall₂ (fun r r' => r'.classification = r.classification ∧ r'.value = r.value ∧
        ∃ t, r'.last_visited = some t ∧ cutoff ≤ t) objs w →
      w.map recKey = objs.map recKey := by
  intro objs w h
  induction h with
  | nil => rfl
  | cons hr _ ih =>
    simp only [List.map_cons, ih, List.cons.injEq, and_true]
    simp [recKey, hr.1, hr.2.1]

/-- The fetched batch has `min batchsize (#eligible)` records. -/
theorem get_objects_length (store : List ValidationObject) (c : String)
    (b cutoff : Nat) (mode : Phase) :
    (get_objects store c b cutoff mode).length =
      min b (store.filter (eligiblePred cutoff mode c)).length := by
  unfold get_objects
  rw [List.length_map, List.length_take, (List.perm_insertionSort _ _).length_eq]

/-- Every fetched record's key is the key of an eligible stored row. -/
theorem get_objects_keys_sub (store : List ValidationObject) (c : String)
    (b cutoff : Nat) (mode : Phase) :
    ∀ r ∈ get_objects store c b cutoff mode,
      recKey r ∈ (store.filter (eligiblePred cutoff mode c)).map recKey := by
  intro r hr
  unfold get_objects at hr
  obtain ⟨r₀, hr₀, rfl⟩ := List.mem_map.mp hr
  have h1 := List.mem_of_mem_take hr₀
  have h2 := (List.perm_insertionSort _ _).subset h1
  exact List.mem_map.mpr ⟨r₀, h2, rfl⟩

/-- The fetched batch's keys are the first `b` keys of the sorted
eligible rows. -/
theorem get_objects_map_key (store : List ValidationObject) (c : String)
    (b cutoff : Nat) (mode : Phase) :
    (get_objects store c b cutoff mode).map recKey =
      ((List.insertionSort (fun r₁ r₂ => sortLe r₁ r₂)
        (store.filter (eligiblePred cutoff mode c))).map recKey).take b := by
  unfold get_objects
  rw [List.map_map, List.map_take]
  congr 1

/-- With a duplicate-free store, the fetched batch has duplicate-free keys. -/
theorem get_objects_keys_nodup (store : List ValidationObject) (c : String)
    (b cutoff : Nat) (mode : Phase) (h : keysNodup store) :
    ((get_objects store c b cutoff mode).map recKey).Nodup := by
  rw [get_objects_map_key]
  have hperm : List.Perm
      ((List.insertionSort (fun r₁ r₂ => sortLe r₁ r₂)
        (store.filter (eligiblePred cutoff mode c))).map recKey)
      ((store.filter (eligiblePred cutoff mode c)).map recKey) :=
    (List.perm_insertionSort _ _).map recKey
  have hsub : List.Sublist ((store.filter (eligiblePred cutoff mode c)).map recKey)
      (store.map recKey) := (List.filter_sublist _).map recKey
  exact (hperm.nodup_iff.mpr (hsub.nodup h)).sublist (List.take_sublist _ _)

/-- A single keyed UPDATE never changes a row's key columns. -/
theorem writeStep_keyPres (o row : ValidationObject) :
    recKey (writeStep o row) = recKey row := by
  unfold writeStep
  split <;> rfl

/-- `rowUpdate` never changes a row's key columns. -/
theorem rowUpdate_keyPres : ∀ (w : List ValidationObject) (row : ValidationObject),
    recKey (rowUpdate w row) = recKey row
  | [], _ => rfl
  | o :: os, row => by
    have h1 : rowUpdate (o :: os) row = rowUpdate os (writeStep o row) := rfl
    rw [h1, rowUpdate_keyPres os (writeStep o row), writeStep_keyPres]

/-- When some written object matches the row's key, the updated row
carries the `last_visited` of one of the written objects. -/
theorem rowUpdate_matched : ∀ (w : List ValidationObject) (row : ValidationObject),
    (∃ o ∈ w, recKey o = recKey row) →
    ∃ o ∈ w, (rowUpdate w row).last_visited = o.last_visited := by
  intro w
  induction w with
  | nil =>
    intro row h
    obtain ⟨o, ho, _⟩ := h
    cases ho
  | cons o os ih =>
    intro row h
    have hred : rowUpdate (o :: os) row = rowUpdate os (writeStep o row) := rfl
    by_cases hos : ∃ o' ∈ os, recKey o' = recKey row
    · have hos' : ∃ o' ∈ os, recKey o' = recKey (writeStep o row) := by
        obtain ⟨o', h1, h2⟩ := hos
        exact ⟨o', h1, by rw [h2, writeStep_keyPres]⟩
      obtain ⟨o', h1, h2⟩ := ih (writeStep o row) hos'
      exact ⟨o', List.mem_cons_of_mem _ h1, by rw [hred]; exact h2⟩
    · have hkey : recKey o = recKey row := by
        obtain ⟨o₀, h0, hk⟩ := h
        rcases List.mem_cons.mp h0 with rfl | hmem
        · exact hk
        · exact absurd ⟨o₀, hmem, hk⟩ hos
      have h1 : o.classification = row.classification := congrArg Prod.fst hkey
      have h2 : o.value = row.value := congrArg Prod.snd hkey
      have hws : writeStep o row = applySet o row := by
        unfold writeStep
        rw [if_pos]
        simp [h1, h2]
      have hnm : rowUpdate os (writeStep o row) = writeStep o row := by
        apply rowUpdate_nomatch
        intro o' ho' hcontra
        apply hos
        refine ⟨o', ho', ?_⟩
        have hwk := writeStep_keyPres o row
        rw [← hwk]
        simp only [recKey, Prod.mk.injEq]
        exact ⟨hcontra.1.symm, hcontra.2.symm⟩
      refine ⟨o, by simp, ?_⟩
      rw [hred, hnm, hws]
      rfl

/-- With duplicate-free store keys, the eligible rows whose key lies in a
duplicate-free list `W` of eligible-row keys number exactly `W.length`. -/
theorem countP_key_mem (store : List ValidationObject) (P : ValidationObject → Bool)
    (W : List (String × String)) (hkeys : keysNodup store) (hW : W.Nodup)
    (hsub : ∀ k ∈ W, k ∈ (store.filter P).map recKey) :
    (store.countP fun r => P r && decide (recKey r ∈ W)) = W.length := by
  rw [List.countP_eq_length_filter]
  have hFsub : List.Sublist
      ((store.filter fun r => P r && decide (recKey r ∈ W)).map recKey)
      (store.map recKey) := (List.filter_sublist _).map recKey
  have hFnodup := hFsub.nodup hkeys
  have hmem : ∀ k, (k ∈ (store.filter fun r => P r && decide (recKey r ∈ W)).map recKey)
      ↔ k ∈ W := by
    intro k
    constructor
    · intro hk
      obtain ⟨r, hr, rfl⟩ := List.mem_map.mp hk
      have h := (List.mem_filter.mp hr).2
      simp only [Bool.and_eq_true, decide_eq_true_eq] at h
      exact h.2
    · intro hk
      obtain ⟨r, hr, hrk⟩ := List.mem_map.mp (hsub k hk)
      have h1 := List.mem_filter.mp hr
      refine List.mem_map.mpr ⟨r, List.mem_filter.mpr ⟨h1.1, ?_⟩, hrk⟩
      simp only [Bool.and_eq_true, decide_eq_true_eq]
      exact ⟨h1.2, by rw [hrk]; exact hk⟩
  have hperm := (List.perm_ext_iff_of_nodup hFnodup hW).mpr hmem
  have hlen := hperm.length_eq
  rw [List.length_map] at hlen
  exact hlen

/-- The heart of the convergence argument: persisting a batch `w` of
fresh-stamped objects whose duplicate-free keys come from the eligible
rows of classification `c` removes exactly `w.length` rows from `c`'s
eligible count, leaves every other classification's count alone, and
keeps the store's key column intact. -/
theorem update_store_spec (cutoff : Nat) (store w : List ValidationObject) (c : String)
    (hkeys : keysNodup store)
    (hwkeys : (w.map recKey).Nodup)
    (hwsub : ∀ o ∈ w, recKey o ∈ (store.filter (eligiblePred cutoff .fast c)).map recKey)
    (hwlv : ∀ o ∈ w, ∃ t, o.last_visited = some t ∧ cutoff ≤ t) :
    eligCount cutoff (update_objects store w) c = eligCount cutoff store c - w.length ∧
    (∀ c', c' ≠ c → eligCount cutoff (update_objects store w) c' =
      eligCount cutoff store c') ∧
    (update_objects store w).map recKey = store.map recKey := by
  have hwfilter : (w.filter fun o => !o.last_visited.isNone) = w := by
    apply List.filter_eq_self.mpr
    intro o ho
    obtain ⟨t, ht, _⟩ := hwlv o ho
    simp [ht]
  have hupd : update_objects store w = store.map (rowUpdate w) := by
    rw [update_objects_eq_map, hwfilter]
  -- keys of every written object point at classification-c rows
  have hWclass : ∀ k ∈ w.map recKey, k.1 = c := by
    intro k hk
    obtain ⟨o, ho, rfl⟩ := List.mem_map.mp hk
    obtain ⟨r₀, hr₀, hk₀⟩ := List.mem_map.mp (hwsub o ho)
    have h1 := (List.mem_filter.mp hr₀).2
    simp only [eligiblePred, Bool.and_eq_true, beq_iff_eq] at h1
    have h2 : (recKey o).1 = (recKey r₀).1 := by rw [hk₀]
    rw [h2]
    exact h1.1
  have hnomatch : ∀ r : ValidationObject, recKey r ∉ w.map recKey →
      rowUpdate w r = r := by
    intro r hr
    apply rowUpdate_nomatch
    intro o ho hco
    apply hr
    refine List.mem_map.mpr ⟨o, ho, ?_⟩
    simp only [recKey, Prod.mk.injEq]
    exact ⟨hco.1.symm, hco.2.symm⟩
  -- pointwise effect of the update on eligibility, any classification
  have hpoint : ∀ (c' : String) (r : ValidationObject),
      eligiblePred cutoff .fast c' (rowUpdate w r) =
        (eligiblePred cutoff .fast c' r && !(decide (recKey r ∈ w.map recKey))) := by
    intro c' r
    by_cases hmem : recKey r ∈ w.map recKey
    · obtain ⟨o, ho, hk⟩ := List.mem_map.mp hmem
      have hlvfalse : fastEligible cutoff (rowUpdate w r) = false := by
        obtain ⟨o', ho', hlv⟩ := rowUpdate_matched w r ⟨o, ho, hk⟩
        obtain ⟨t, ht, htc⟩ := hwlv o' ho'
        unfold fastEligible
        rw [hlv, ht]
        simp only [decide_eq_false_iff_not]
        omega
      simp [eligiblePred, hlvfalse, hmem]
    · rw [hnomatch r hmem]
      simp [hmem]
  refine ⟨?_, ?_, ?_⟩
  · -- classification c: exactly w.length eligible rows disappear
    unfold eligCount
    rw [hupd, ← List.countP_eq_length_filter, ← List.countP_eq_length_filter,
      List.countP_map]
    have hcongr : store.countP (eligiblePred cutoff .fast c ∘ rowUpdate w) =
        store.countP fun r =>
          eligiblePred cutoff .fast c r && !(decide (recKey r ∈ w.map recKey)) :=
      List.countP_congr fun r _ => by
        simp only [Function.comp_apply, hpoint c r]
    rw [hcongr]
    have hsplit := countP_split store (eligiblePred cutoff .fast c)
      (fun r => decide (recKey r ∈ w.map recKey))
    have hcount := countP_key_mem store (eligiblePred cutoff .fast c)
      (w.map recKey) hkeys hwkeys (by
        intro k hk
        obtain ⟨o, ho, rfl⟩ := List.mem_map.mp hk
        exact hwsub o ho)
    rw [List.length_map] at hcount
    omega
  · -- other classifications: untouched
    intro c' hc'
    unfold eligCount
    rw [hupd, ← List.countP_eq_length_filter, ← List.countP_eq_length_filter,
      List.countP_map]
    refine List.countP_congr fun r _ => ?_
    simp only [Function.comp_apply, hpoint c' r]
    by_cases hmem : recKey r ∈ w.map recKey
    · have hclass : r.classification = c := hWclass (recKey r) hmem
      have : eligiblePred cutoff .fast c' r = false := by
        simp [eligiblePred, hclass, hc'.symm]
      simp [this, hmem]
    · simp [hmem]
  · rw [hupd, List.map_map]
    exact List.map_congr_left fun r _ => rowUpdate_keyPres w r

theorem isEmpty_iff_length {α : Type} (l : List α) : l.isEmpty = true ↔ l.length = 0 := by
  cases l <;> simp

/-- One loop-body iteration for a registered, contract-abiding validator:
the `final` flag records whether the classification's eligible backlog was
empty, the backlog shrinks by (up to) one batch, other classifications
and the key column are untouched. -/
theorem processClass_spec
    (reg : String → Option (List ValidationObject → List ValidationObject))
    (b cutoff : Nat) (store : List ValidationObject) (fl : List Bool) (c : String)
    (hb : 0 < b) (hkeys : keysNodup store)
    (v : List ValidationObject → List ValidationObject)
    (hv : reg c = some v) (hgood : GoodValidator cutoff v) :
    (processClass reg b cutoff (store, fl) c).2 =
      fl ++ [eligCount cutoff store c == 0] ∧
    eligCount cutoff (processClass reg b cutoff (store, fl) c).1 c =
      eligCount cutoff store c - b ∧
    (∀ c', c' ≠ c → eligCount cutoff (processClass reg b cutoff (store, fl) c).1 c' =
      eligCount cutoff store c') ∧
    (processClass reg b cutoff (store, fl) c).1.map recKey = store.map recKey := by
  have hpc : processClass reg b cutoff (store, fl) c =
      if (get_objects store c b cutoff .fast).isEmpty then (store, fl ++ [true])
      else match reg c with
        | some v => (update_objects store (v (get_objects store c b cutoff .fast)),
            fl ++ [false])
        | none => (store, fl ++ [false]) := rfl
  have hlen := get_objects_length store c b cutoff .fast
  by_cases he : (get_objects store c b cutoff .fast).isEmpty = true
  · -- empty fetch: the backlog is empty already
    have h0 : eligCount cutoff store c = 0 := by
      have := (isEmpty_iff_length _).mp he
      rw [hlen] at this
      unfold eligCount
      omega
    rw [hpc, if_pos he]
    refine ⟨by simp [h0], by simp [h0], fun c' _ => rfl, rfl⟩
  · -- nonempty fetch: validate and persist
    have hn0 : eligCount cutoff store c ≠ 0 := by
      intro h0
      apply he
      rw [isEmpty_iff_length, hlen]
      unfold eligCount at h0
      omega
    rw [hpc, if_neg he, hv]
    have hrel := hgood (get_objects store c b cutoff .fast)
    have hkeq : (v (get_objects store c b cutoff .fast)).map recKey =
        (get_objects store c b cutoff .fast).map recKey := forall₂_key_map hrel
    have hwkeys : ((v (get_objects store c b cutoff .fast)).map recKey).Nodup := by
      rw [hkeq]
      exact get_objects_keys_nodup store c b cutoff .fast hkeys
    have hwsub : ∀ o ∈ v (get_objects store c b cutoff .fast),
        recKey o ∈ (store.filter (eligiblePred cutoff .fast c)).map recKey := by
      intro o ho
      have h1 : recKey o ∈ (v (get_objects store c b cutoff .fast)).map recKey :=
        List.mem_map.mpr ⟨o, ho, rfl⟩
      rw [hkeq] at h1
      obtain ⟨r, hr, hrk⟩ := List.mem_map.mp h1
      rw [← hrk]
      exact get_objects_keys_sub store c b cutoff .fast r hr
    have hwlv : ∀ o ∈ v (get_objects store c b cutoff .fast),
        ∃ t, o.last_visited = some t ∧ cutoff ≤ t := by
      intro o ho
      obtain ⟨r, _, hrrel⟩ := forall₂_mem_right hrel o ho
      exact hrrel.2.2
    have hwlen : (v (get_objects store c b cutoff .fast)).length =
        min b (eligCount cutoff store c) := by
      rw [← hrel.length_eq, hlen]
      rfl
    obtain ⟨hc, hc', hkmap⟩ :=
      update_store_spec cutoff store (v (get_objects store c b cutoff .fast)) c
        hkeys hwkeys hwsub hwlv
    refine ⟨by simp [hn0], ?_, fun c' hne => hc' c' hne, hkmap⟩
    rw [hc, hwlen]
    rcases Nat.le_total b (eligCount cutoff store c) with h | h
    · rw [Nat.min_eq_left h]
    · rw [Nat.min_eq_right h]
      omega

/-- One full round over the classification list: the `final` flags record
per classification whether its backlog was already empty at the round's
start, every listed classification's backlog shrinks by one batch, and
unlisted classifications and the key column are untouched. -/
theorem roundFold_spec
    (reg : String → Option (List ValidationObject → List ValidationObject))
    (b cutoff : Nat) (hb : 0 < b) :
    ∀ (cs : List String) (store : List ValidationObject) (fl : List Bool),
    cs.Nodup → keysNodup store →
    (∀ c ∈ cs, ∃ v, reg c = some v ∧ GoodValidator cutoff v) →
    (cs.foldl (processClass reg b cutoff) (store, fl)).2 =
      fl ++ cs.map (fun c => eligCount cutoff store c == 0) ∧
    (∀ c ∈ cs, eligCount cutoff (cs.foldl (processClass reg b cutoff) (store, fl)).1 c =
      eligCount cutoff store c - b) ∧
    (∀ c', c' ∉ cs →
      eligCount cutoff (cs.foldl (processClass reg b cutoff) (store, fl)).1 c' =
        eligCount cutoff store c') ∧
    (cs.foldl (processClass reg b cutoff) (store, fl)).1.map recKey =
      store.map recKey := by
  intro cs
  induction cs with
  | nil =>
    intro store fl _ _ _
    exact ⟨by simp, by simp, fun c' _ => rfl, rfl⟩
  | cons c cs ih =>
    intro store fl hnd hkeys hreg
    obtain ⟨v, hv, hgood⟩ := hreg c (by simp)
    have hcnotin : c ∉ cs := (List.nodup_cons.mp hnd).1
    have hps := processClass_spec reg b cutoff store fl c hb hkeys v hv hgood
    obtain ⟨hflag, hcntc, hcnt', hkmap⟩ := hps
    have hkeys₁ : keysNodup (processClass reg b cutoff (store, fl) c).1 := by
      unfold keysNodup
      rw [hkmap]
      exact hkeys
    have hfold : (c :: cs).foldl (processClass reg b cutoff) (store, fl) =
        cs.foldl (processClass reg b cutoff)
          ((processClass reg b cutoff (store, fl) c).1,
           (processClass reg b cutoff (store, fl) c).2) := by
      rw [List.foldl_cons]
    obtain ⟨ihflags, ihcnt, ihcnt', ihkmap⟩ :=
      ih (processClass reg b cutoff (store, fl) c).1
        (processClass reg b cutoff (store, fl) c).2
        (List.nodup_cons.mp hnd).2 hkeys₁ (fun c' hc' => hreg c' (by simp [hc']))
    refine ⟨?_, ?_, ?_, ?_⟩
    · rw [hfold, ihflags, hflag]
      have hmapeq : cs.map
          (fun c' => eligCount cutoff (processClass reg b cutoff (store, fl) c).1 c' == 0) =
          cs.map (fun c' => eligCount cutoff store c' == 0) :=
        List.map_congr_left fun c' hc' => by
          rw [hcnt' c' (fun heq => hcnotin (heq ▸ hc'))]
      rw [hmapeq]
      simp
    · intro c₀ hc₀
      rcases List.mem_cons.mp hc₀ with rfl | hmem
      · rw [hfold, ihcnt' c₀ hcnotin, hcntc]
      · rw [hfold, ihcnt c₀ hmem, hcnt' c₀ (fun heq => hcnotin (heq ▸ hmem))]
    · intro c' hc'
      have h1 : c' ≠ c := fun heq => hc' (by simp [heq])
      have h2 : c' ∉ cs := fun hmem => hc' (by simp [hmem])
      rw [hfold, ihcnt' c' h2, hcnt' c' h1]
    · rw [hfold, ihkmap, hkmap]

theorem foldr_max_le {l : List Nat} {x : Nat} (hx : x ∈ l) : x ≤ l.foldr Nat.max 0 := by
  induction l with
  | nil => cases hx
  | cons a l ih =>
    rcases List.mem_cons.mp hx with rfl | hmem
    · exact Nat.le_max_left _ _
    · exact (ih hmem).trans (Nat.le_max_right _ _)

theorem foldr_max_zero {l : List Nat} (h : ∀ x ∈ l, x = 0) : l.foldr Nat.max 0 = 0 := by
  induction l with
  | nil => rfl
  | cons a l ih =>
    rw [List.foldr_cons, h a (by simp), ih fun x hx => h x (by simp [hx])]
    rfl

theorem foldr_max_sub (l : List Nat) (b : Nat) :
    (l.map fun x => x - b).foldr Nat.max 0 = l.foldr Nat.max 0 - b := by
  induction l with
  | nil => simp
  | cons a l ih =>
    simp only [List.map_cons, List.foldr_cons, ih]
    simp only [Nat.max_def]
    split_ifs <;> omega

theorem maxBacklog_eq_zero {cutoff : Nat} {store : List ValidationObject}
    {cs : List String} (h : maxBacklog cutoff store cs = 0) :
    ∀ c ∈ cs, eligCount cutoff store c = 0 := by
  intro c hc
  have hmem : eligCount cutoff store c ∈ cs.map (eligCount cutoff store) :=
    List.mem_map.mpr ⟨c, hc, rfl⟩
  have := foldr_max_le hmem
  unfold maxBacklog at h
  omega

theorem maxBacklog_ne_zero {cutoff : Nat} {store : List ValidationObject}
    {cs : List String} (h : maxBacklog cutoff store cs ≠ 0) :
    ∃ c ∈ cs, eligCount cutoff store c ≠ 0 := by
  by_contra hall
  push_neg at hall
  apply h
  unfold maxBacklog
  apply foldr_max_zero
  intro x hx
  obtain ⟨c, hc, rfl⟩ := List.mem_map.mp hx
  exact hall c hc

theorem maxBacklog_sub {cutoff : Nat} {store store' : List ValidationObject}
    {cs : List String} {b : Nat}
    (h : ∀ c ∈ cs, eligCount cutoff store' c = eligCount cutoff store c - b) :
    maxBacklog cutoff store' cs = maxBacklog cutoff store cs - b := by
  unfold maxBacklog
  have h1 : cs.map (eligCount cutoff store') =
      (cs.map (eligCount cutoff store)).map fun x => x - b := by
    rw [List.map_map]
    exact List.map_congr_left fun c hc => h c hc
  rw [h1, foldr_max_sub]

theorem cdiv_zero {b : Nat} (hb : 0 < b) : cdiv 0 b = 0 := by
  unfold cdiv
  rw [Nat.zero_add]
  exact Nat.div_eq_of_lt (by omega)

theorem cdiv_succ {M b : Nat} (hM : 0 < M) (hb : 0 < b) :
    cdiv M b = cdiv (M - b) b + 1 := by
  unfold cdiv
  rcases Nat.le_total b M with h | h
  · have he : M + b - 1 = (M - b + b - 1) + b := by omega
    rw [he, Nat.add_div_right _ hb]
  · have h1 : M + b - 1 = (M - 1) + b := by omega
    have h2 : M - b = 0 := by omega
    rw [h1, Nat.add_div_right _ hb, Nat.div_eq_of_lt (by omega), h2, Nat.zero_add,
      Nat.div_eq_of_lt (by omega)]

/-- C7 (amended): with a positive batch size, duplicate-free store keys and
classification list, and a registered contract-abiding (fresh-stamping)
phase method for every listed classification, the fast sweep terminates,
and the number of executed rounds is exactly
`1 + ceil(max_backlog / batch_size)` — the rounds that drain the largest
backlog plus the final round in which every classification reports an
empty batch. -/
theorem c7_sweep_terminates
    (reg : String → Option (List ValidationObject → List ValidationObject))
    (cs : List String) (b cutoff : Nat) (store : List ValidationObject)
    (hb : 0 < b) (hcs : cs.Nodup) (hkeys : keysNodup store)
    (hreg : ∀ c ∈ cs, ∃ v, reg c = some v ∧ GoodValidator cutoff v) :
    ∃ store', sweepFast reg cs b cutoff (1 + cdiv (maxBacklog cutoff store cs) b) store =
      some (1 + cdiv (maxBacklog cutoff store cs) b, store') := by
  suffices h : ∀ M store, keysNodup store → maxBacklog cutoff store cs = M →
      ∃ store', sweepFast reg cs b cutoff (1 + cdiv M b) store =
        some (1 + cdiv M b, store') by
    exact h _ store hkeys rfl
  intro M
  induction M using Nat.strong_induction_on with
  | _ M ih =>
    intro store hkeys hM
    have hroundeq : roundFast reg cs b cutoff store =
        cs.foldl (processClass reg b cutoff) (store, []) := rfl
    obtain ⟨hflags, hcnt, hcnt', hkmap⟩ :=
      roundFold_spec reg b cutoff hb cs store [] hcs hkeys hreg
    rw [← hroundeq] at hflags hcnt hcnt' hkmap
    by_cases hM0 : M = 0
    · subst hM0
      have hall := maxBacklog_eq_zero hM
      have hfl : (roundFast reg cs b cutoff store).2.all (fun f => f) = true := by
        rw [hflags]
        simp only [List.nil_append, List.all_eq_true, List.mem_map]
        rintro x ⟨c, hc, rfl⟩
        simp [hall c hc]
      rw [cdiv_zero hb]
      refine ⟨(roundFast reg cs b cutoff store).1, ?_⟩
      show sweepFast reg cs b cutoff (0 + 1) store = some (1, _)
      unfold sweepFast
      rw [if_pos hfl]
    · have hMpos : 0 < M := Nat.pos_of_ne_zero hM0
      obtain ⟨c₀, hc₀, hn₀⟩ := maxBacklog_ne_zero (hM ▸ hM0)
      have hfl : (roundFast reg cs b cutoff store).2.all (fun f => f) = false := by
        rw [hflags]
        simp only [List.nil_append]
        rw [List.all_eq_false]
        exact ⟨(eligCount cutoff store c₀ == 0), List.mem_map.mpr ⟨c₀, hc₀, rfl⟩,
          by simp [hn₀]⟩
      have hkeys₁ : keysNodup (roundFast reg cs b cutoff store).1 := by
        unfold keysNodup
        rw [hkmap]
        exact hkeys
      have hM₁ : maxBacklog cutoff (roundFast reg cs b cutoff store).1 cs = M - b := by
        rw [maxBacklog_sub hcnt, hM]
      obtain ⟨store', hs'⟩ := ih (M - b) (by omega) (roundFast reg cs b cutoff store).1
        hkeys₁ hM₁
      have hfuel : 1 + cdiv M b = (1 + cdiv (M - b) b) + 1 := by
        rw [cdiv_succ hMpos hb]
        omega
      refine ⟨store', ?_⟩
      rw [hfuel]
      show sweepFast reg cs b cutoff ((1 + cdiv (M - b) b) + 1) store =
        some ((1 + cdiv (M - b) b) + 1, store')
      unfold sweepFast
      rw [if_neg (by rw [hfl]; simp)]
      rw [hs']
      rfl

/-- The stamping validator obeys the dispatch contract. -/
theorem stampValidator_good (cutoff t : Nat) (h : cutoff ≤ t) :
    GoodValidator cutoff (stampValidator t) := fun objs =>
  forall₂_map_self _ (fun _ => ⟨rfl, rfl, t, rfl, h⟩) objs

theorem c7_sweep_terminates_witness :
    ∃ store', sweepFast (fun _ => some (stampValidator 1)) ["URL"] 1 1 2 [mkRec "URL" "a"] =
      some (2, store') :=
  c7_sweep_terminates (fun _ => some (stampValidator 1)) ["URL"] 1 1 [mkRec "URL" "a"]
    (by decide) (by decide) (by unfold keysNodup; decide)
    (fun _ _ => ⟨stampValidator 1, rfl, stampValidator_good 1 1 (Nat.le_refl 1)⟩)

/-- C7, counterexample: the claimed round count `ceil(max_backlog /
batch_size)` fails on the code in both directions the claim covers.
With an unregistered classification holding one eligible record
(batch size 1, so the claim predicts 1 round), one round returns the
state unchanged with its flag still false — so the sweep is not finished
after 1 round (and, the round being the identity on the state, never
finishes).  And even with a registered, stamping validator, draining one
record with batch size 1 is not finished after the claimed 1 round: the
loop needs the extra all-empty confirmation round. -/
theorem c7_counterexample_round_count :
    roundFast (fun _ => none) ["X"] 1 0 [mkRec "X" "v"] = ([mkRec "X" "v"], [false]) ∧
    sweepFast (fun _ => none) ["X"] 1 0 1 [mkRec "X" "v"] = none ∧
    sweepFast (fun _ => some (stampValidator 1)) ["URL"] 1 1 1 [mkRec "URL" "a"] = none :=
  ⟨by decide, by decide, by decide⟩
